import Mathlib

/-!
Verification of the objective functions and mock-data generator of the
notebook "Introduction to Bayesian Inference with Linear Regression".

The notebook works over numpy float arrays; we embed the numeric values as
rationals (`ℚ`).  The transcendental pieces (`np.log` and the constant
`2·π`) enter the objectives only as an uninterpreted function applied to
the per-point variance, so they are embedded as an explicit parameter
record `RealOps`; every algebraic identity below holds for an arbitrary
interpretation of that record.
-/

/-- Uninterpreted embedding of the transcendental operations used by the
log-likelihood and log-prior: a logarithm function and the constant 2·π. -/
structure RealOps where
  log : ℚ → ℚ
  twoPi : ℚ

/-- Abstract stream view of `np.random.RandomState(seed)`: `unit k` is the
k-th uniform [0,1) draw (used by `rand` and, rescaled, by `uniform`),
`gauss k` the k-th standard-normal draw (used, rescaled, by `normal`).
A concrete seed determines one concrete `RandomState` value. -/
structure RandomState where
  unit : ℕ → ℚ
  gauss : ℕ → ℚ

/-- The [0,1) contract of the uniform draws of a `RandomState`. -/
def UnitDraws (rs : RandomState) : Prop :=
  ∀ k, 0 ≤ rs.unit k ∧ rs.unit k < 1

/-- Embedding of `gen_mock_data(seed, m, b, s, unc=[lo,hi], N)` from the
notebook: `x = np.sort(3. * rstate.rand(N))`, `y_int = m * x + b`,
`y = rstate.normal(y_int, s)`, `yerr = rstate.uniform(lo, hi, N)`,
`yobs = rstate.normal(y, yerr)`; returns `(x, yobs, yerr)`.
`np.sort` is modelled by insertion sort (any sorted permutation),
`normal(mu, sd)` by `mu + sd * z` with `z` a standard-normal draw, and
`uniform(lo, hi)` by `lo + (hi - lo) * u` with `u` a uniform [0,1) draw. -/
def gen_mock_data (rs : RandomState) (m b s lo hi : ℚ) (N : ℕ) :
    List ℚ × List ℚ × List ℚ :=
  let x := List.insertionSort (· ≤ ·) ((List.range N).map (fun k => 3 * rs.unit k))
  let y := (List.range N).map (fun i => (m * x.getD i 0 + b) + s * rs.gauss i)
  let yerr := (List.range N).map (fun i => lo + (hi - lo) * rs.unit (N + i))
  let yobs := (List.range N).map (fun i => y.getD i 0 + yerr.getD i 0 * rs.gauss (N + i))
  (x, yobs, yerr)

/-- Per-point contribution to `loss`: `|y_i − (m·x_i + b)|^p`. -/
def lossTerm (m b : ℚ) (p : ℕ) (q : ℚ × ℚ) : ℚ :=
  |q.2 - (m * q.1 + b)| ^ p

/-- Modelled from the spec: the body of `loss` (its `resid = ...` and
`return ...` lines) is an exercise blank in the notebook; §4.1 supplies
`residual_i = y_i − (m·x_i + b)` and the value `Σ|residual_i|^p`.  The
exponent is restricted to naturals (the claims only use p = 2). -/
def loss (theta : ℚ × ℚ) (p : ℕ) (x y : List ℚ) : ℚ :=
  let m := theta.1
  let b := theta.2
  ((x.zip y).map (lossTerm m b p)).sum

/-- Per-point contribution to `chi2`: the squared error-normalized residual
`((y_i − (m·x_i+b)) / sigma_i)²`. -/
def chi2Term (m b : ℚ) (q : ℚ × ℚ × ℚ) : ℚ :=
  ((q.2.1 - (m * q.1 + b)) / q.2.2) ^ 2

/-- Modelled from the spec: the body of `chi2` (its `resid = ...` and
`return ...` lines) is an exercise blank in the notebook; §4.1 supplies
`Σ ((y_i − (m·x_i+b)) / sigma_i)²` and §7/§8 require a descriptive domain
error when a non-positive sigma would be divided by, rather than a silent
numeric result. -/
def chi2 (theta : ℚ × ℚ) (x y ye : List ℚ) : Except String ℚ :=
  let m := theta.1
  let b := theta.2
  if ye.any (fun sigma => sigma ≤ 0) then
    Except.error "chi2: every sigma must be positive"
  else
    Except.ok (((x.zip (y.zip ye)).map (chi2Term m b)).sum)

/-- Per-point contribution to the negative log-likelihood, with per-point
variance `v = sigma² + s²`: `(y − (m·x + b))²/v + ln(2π·v)`. -/
def nllTerm (R : RealOps) (m b s : ℚ) (q : ℚ × ℚ × ℚ) : ℚ :=
  (q.2.1 - (m * q.1 + b)) ^ 2 / (q.2.2 ^ 2 + s ^ 2)
    + R.log (R.twoPi * (q.2.2 ^ 2 + s ^ 2))

/-- Modelled from the spec: the `resid = ...` and `logl = ...` lines of
`negloglike` are exercise blanks in the notebook (only `return -logl` is
given); §4.1 supplies `v_i = sigma_i² + s²` and the value
`0.5·Σ[ (y_i−(m·x_i+b))²/v_i + ln(2π·v_i) ]` for the negative
log-likelihood, i.e. `logl` is minus that sum. -/
def negloglike (R : RealOps) (theta : ℚ × ℚ × ℚ) (x y ye : List ℚ) : ℚ :=
  let m := theta.1
  let b := theta.2.1
  let s := theta.2.2
  let logl := -(1/2) * ((x.zip (y.zip ye)).map (nllTerm R m b s)).sum;
  -logl

/-- Modelled from the spec: the whole body of `neglogprior` is an exercise
blank in the notebook; §4.1 supplies
`0.5·Σ_j [ (theta_j − mean_j)²/std_j² + ln(2π·std_j²) ]`, an independent
Gaussian prior per parameter, for the three parameters (m, b, s). -/
def neglogprior (R : RealOps) (theta mean std : ℚ × ℚ × ℚ) : ℚ :=
  (1/2) * ((theta.1 - mean.1) ^ 2 / std.1 ^ 2 + R.log (R.twoPi * std.1 ^ 2)
    + (theta.2.1 - mean.2.1) ^ 2 / std.2.1 ^ 2 + R.log (R.twoPi * std.2.1 ^ 2)
    + (theta.2.2 - mean.2.2) ^ 2 / std.2.2 ^ 2 + R.log (R.twoPi * std.2.2 ^ 2))

/-- Embedding of `neglogpost` from the notebook (its body is fully given):
`logp = -neglogprior(theta, mean, std)`, `logl = -negloglike(theta, x, y, ye)`,
`return -(logl + logp)`. -/
def neglogpost (R : RealOps) (theta : ℚ × ℚ × ℚ) (x y ye : List ℚ)
    (mean std : ℚ × ℚ × ℚ) : ℚ :=
  let logp := -(neglogprior R theta mean std)
  let logl := -(negloglike R theta x y ye);
  -(logl + logp)

/-- C1: for every interpretation of the transcendental operations, every
parameter vector theta, every dataset (x, y, sigma) and every prior
specification (means, stds), `neglogpost` equals `negloglike` plus
`neglogprior`, exactly, as an algebraic identity. -/
theorem neglogpost_eq_negloglike_add_neglogprior (R : RealOps)
    (theta : ℚ × ℚ × ℚ) (x y ye : List ℚ) (mean std : ℚ × ℚ × ℚ) :
    neglogpost R theta x y ye mean std
      = negloglike R theta x y ye + neglogprior R theta mean std := by
  unfold neglogpost
  ring

/-- Summing a function over three zipped equal-length lists equals the
indexed sum over `Finset.range` of their common length. -/
lemma sum_map_zip_eq_sum_range (g : ℚ × ℚ × ℚ → ℚ) :
    ∀ (N : ℕ) (xs ys zs : List ℚ), xs.length = N → ys.length = N →
      zs.length = N →
      ((xs.zip (ys.zip zs)).map g).sum
        = ∑ i in Finset.range N, g (xs.getD i 0, ys.getD i 0, zs.getD i 0) := by
  intro N
  induction N with
  | zero =>
    intro xs ys zs hx hy hz
    rw [List.length_eq_zero] at hx hy hz
    subst hx; subst hy; subst hz
    simp
  | succ n ih =>
    intro xs ys zs hx hy hz
    cases xs with
    | nil => simp at hx
    | cons a xs =>
      cases ys with
      | nil => simp at hy
      | cons c ys =>
        cases zs with
        | nil => simp at hz
        | cons d zs =>
          simp only [List.length_cons, Nat.succ.injEq] at hx hy hz
          rw [Finset.sum_range_succ']
          simp only [List.zip_cons_cons, List.map_cons, List.sum_cons,
            List.getD_cons_succ, List.getD_cons_zero]
          rw [ih xs ys zs hx hy hz]
          ring

/-- C2: for every interpretation of the transcendental operations, every
parameter vector (m, b, s) and every dataset of N ≥ 1 aligned observations,
`negloglike` returns 0.5 times the sum over i of
`(y_i − (m·x_i + b))² / v_i + ln(2π·v_i)` with `v_i = sigma_i² + s²`. -/
theorem negloglike_closed_form (R : RealOps) (m b s : ℚ) (x y ye : List ℚ)
    (N : ℕ) (hN : 1 ≤ N) (hx : x.length = N) (hy : y.length = N)
    (hz : ye.length = N) :
    negloglike R (m, b, s) x y ye
      = (1/2) * ∑ i in Finset.range N,
          ((y.getD i 0 - (m * x.getD i 0 + b)) ^ 2 / (ye.getD i 0 ^ 2 + s ^ 2)
            + R.log (R.twoPi * (ye.getD i 0 ^ 2 + s ^ 2))) := by
  simp only [negloglike]
  rw [sum_map_zip_eq_sum_range (nllTerm R m b s) N x y ye hx hy hz]
  simp only [nllTerm]
  ring

/-- A concrete interpretation of the transcendental operations used by the
witnesses: the logarithm is interpreted as the identity and 2·π as 1. -/
def sampleOps : RealOps := ⟨fun q => q, 1⟩

/-- Witness for C2 at a concrete interpretation, parameter vector and a
one-point dataset. -/
theorem negloglike_closed_form_witness :
    (1:ℕ) ≤ 1 ∧
      negloglike sampleOps (1, 0, 1) [1] [2] [1]
        = (1/2) * ∑ i in Finset.range 1,
            (([2].getD i 0 - (1 * [1].getD i 0 + 0)) ^ 2
                / ([1].getD i 0 ^ 2 + 1 ^ 2)
              + sampleOps.log (sampleOps.twoPi * ([1].getD i 0 ^ 2 + 1 ^ 2))) :=
  ⟨le_refl 1,
    negloglike_closed_form sampleOps 1 0 1 [1] [2] [1] 1 (le_refl 1) rfl rfl rfl⟩

/-- C3: on any dataset containing an observation with sigma_i = 0, `chi2`
returns a descriptive domain error rather than a numeric value. -/
theorem chi2_zero_sigma_domain_error (m b : ℚ) (x y ye : List ℚ)
    (h : (0:ℚ) ∈ ye) :
    chi2 (m, b) x y ye = Except.error "chi2: every sigma must be positive" := by
  simp only [chi2]
  rw [if_pos]
  rw [List.any_eq_true]
  exact ⟨0, h, by norm_num⟩

/-- Witness for C3: a one-point dataset with sigma = 0. -/
theorem chi2_zero_sigma_domain_error_witness :
    (0:ℚ) ∈ [(0:ℚ)] ∧
      chi2 (1, 0) [1] [1] [0]
        = Except.error "chi2: every sigma must be positive" :=
  ⟨List.mem_singleton.mpr rfl,
    chi2_zero_sigma_domain_error 1 0 [1] [1] [0]
      (List.mem_singleton.mpr rfl)⟩

/-- Sums of per-point chi-square and squared-loss contributions agree when
every sigma equals 1 and the y and sigma sequences are aligned. -/
lemma chi2_sum_eq_loss_sum (m b : ℚ) :
    ∀ (xs ys zs : List ℚ), ys.length = zs.length → (∀ e ∈ zs, e = 1) →
      ((xs.zip (ys.zip zs)).map (chi2Term m b)).sum
        = ((xs.zip ys).map (lossTerm m b 2)).sum := by
  intro xs
  induction xs with
  | nil => intro ys zs _ _; simp
  | cons a xs ih =>
    intro ys zs hlen hone
    cases ys with
    | nil => simp
    | cons c ys =>
      cases zs with
      | nil => simp at hlen
      | cons d zs =>
        simp only [List.length_cons, Nat.succ.injEq] at hlen
        have hd : d = 1 := hone d (List.mem_cons_self d zs)
        have hrest : ∀ e ∈ zs, e = 1 := fun e he => hone e (List.mem_cons_of_mem d he)
        simp only [List.zip_cons_cons, List.map_cons, List.sum_cons]
        rw [ih ys zs hlen hrest, hd]
        simp only [chi2Term, lossTerm, div_one, sq_abs]

/-- C4: on any aligned dataset in which every sigma_i = 1, `chi2` succeeds
and returns exactly the value of `loss` with exponent p = 2. -/
theorem chi2_eq_loss_of_unit_sigma (m b : ℚ) (x y ye : List ℚ)
    (hlen : y.length = ye.length) (hone : ∀ e ∈ ye, e = 1) :
    chi2 (m, b) x y ye = Except.ok (loss (m, b) 2 x y) := by
  simp only [chi2, loss]
  rw [if_neg]
  · rw [chi2_sum_eq_loss_sum m b x y ye hlen hone]
  · simp only [List.any_eq_true, not_exists]
    intro e
    rintro ⟨he, hle⟩
    have := hone e he
    subst this
    norm_num at hle

/-- Witness for C4: a two-point dataset with unit measurement errors. -/
theorem chi2_eq_loss_of_unit_sigma_witness :
    ([3, 4] : List ℚ).length = ([1, 1] : List ℚ).length ∧
      chi2 (1, 0) [1, 2] [3, 4] [1, 1]
        = Except.ok (loss (1, 0) 2 [1, 2] [3, 4]) :=
  ⟨rfl, chi2_eq_loss_of_unit_sigma 1 0 [1, 2] [3, 4] [1, 1] rfl
    (by decide)⟩

/-- Counterexample to C5: with the notebook's prior hyperparameters
(means (1, 3, 1/2), stds (1/4, 1/2, 3/20)), `neglogprior` changes when the
scatter parameter s = 1 is replaced by -1, because s enters the Gaussian
prior linearly through (s − mean_s)². -/
theorem neglogprior_not_scatter_sign_invariant :
    ¬ (neglogprior sampleOps (0, 0, -1) (1, 3, 1/2) (1/4, 1/2, 3/20)
        = neglogprior sampleOps (0, 0, 1) (1, 3, 1/2) (1/4, 1/2, 3/20)) := by
  norm_num [neglogprior, sampleOps]

/-- C5 (amended): `negloglike` is unchanged when s is replaced by -s, for
every dataset; `neglogprior` and `neglogpost` are additionally unchanged
provided the prior mean for the scatter parameter is zero (in general the
prior, and hence the posterior, depends on the sign of s, since s enters
the Gaussian prior linearly). -/
theorem objectives_scatter_sign_invariance (R : RealOps) (m b s : ℚ)
    (x y ye : List ℚ) (mean std : ℚ × ℚ × ℚ) (h : mean.2.2 = 0) :
    negloglike R (m, b, -s) x y ye = negloglike R (m, b, s) x y ye
    ∧ neglogprior R (m, b, -s) mean std = neglogprior R (m, b, s) mean std
    ∧ neglogpost R (m, b, -s) x y ye mean std
        = neglogpost R (m, b, s) x y ye mean std := by
  have hterm : nllTerm R m b (-s) = nllTerm R m b s := by
    funext q
    simp only [nllTerm, neg_sq]
  have hlike : negloglike R (m, b, -s) x y ye = negloglike R (m, b, s) x y ye := by
    simp only [negloglike, hterm]
  have hprior : neglogprior R (m, b, -s) mean std
      = neglogprior R (m, b, s) mean std := by
    simp only [neglogprior, h, sub_zero, neg_sq]
  refine ⟨hlike, hprior, ?_⟩
  simp only [neglogpost, hlike, hprior]

/-- Witness for C5 (amended) at a concrete interpretation, dataset and a
prior whose scatter mean is zero. -/
theorem objectives_scatter_sign_invariance_witness :
    ((0:ℚ), (0:ℚ), (0:ℚ)).2.2 = 0 ∧
      (negloglike sampleOps (1, 2, -3) [1] [1] [1]
          = negloglike sampleOps (1, 2, 3) [1] [1] [1]
        ∧ neglogprior sampleOps (1, 2, -3) (0, 0, 0) (1, 1, 1)
            = neglogprior sampleOps (1, 2, 3) (0, 0, 0) (1, 1, 1)
        ∧ neglogpost sampleOps (1, 2, -3) [1] [1] [1] (0, 0, 0) (1, 1, 1)
            = neglogpost sampleOps (1, 2, 3) [1] [1] [1] (0, 0, 0) (1, 1, 1)) :=
  ⟨rfl, objectives_scatter_sign_invariance sampleOps 1 2 3 [1] [1] [1]
    (0, 0, 0) (1, 1, 1) rfl⟩

/-- C6: all five objective functions are deterministic: evaluations on equal
interpretations, parameter vectors, datasets and prior specifications give
equal values, for every parameter vector. -/
theorem objectives_deterministic (R₁ R₂ : RealOps) (p₁ p₂ : ℕ)
    (t₁ t₂ : ℚ × ℚ × ℚ) (x₁ x₂ y₁ y₂ z₁ z₂ : List ℚ)
    (mean₁ mean₂ std₁ std₂ : ℚ × ℚ × ℚ)
    (hR : R₁ = R₂) (hp : p₁ = p₂) (ht : t₁ = t₂) (hx : x₁ = x₂)
    (hy : y₁ = y₂) (hz : z₁ = z₂) (hm : mean₁ = mean₂) (hs : std₁ = std₂) :
    loss (t₁.1, t₁.2.1) p₁ x₁ y₁ = loss (t₂.1, t₂.2.1) p₂ x₂ y₂
    ∧ chi2 (t₁.1, t₁.2.1) x₁ y₁ z₁ = chi2 (t₂.1, t₂.2.1) x₂ y₂ z₂
    ∧ negloglike R₁ t₁ x₁ y₁ z₁ = negloglike R₂ t₂ x₂ y₂ z₂
    ∧ neglogprior R₁ t₁ mean₁ std₁ = neglogprior R₂ t₂ mean₂ std₂
    ∧ neglogpost R₁ t₁ x₁ y₁ z₁ mean₁ std₁
        = neglogpost R₂ t₂ x₂ y₂ z₂ mean₂ std₂ := by
  subst hR; subst hp; subst ht; subst hx; subst hy; subst hz; subst hm; subst hs
  exact ⟨rfl, rfl, rfl, rfl, rfl⟩

/-- Witness for C6 at a concrete interpretation, parameter vector, dataset
and prior specification. -/
theorem objectives_deterministic_witness :
    sampleOps = sampleOps ∧
      (loss (((1:ℚ), (2:ℚ), (3:ℚ)).1, ((1:ℚ), (2:ℚ), (3:ℚ)).2.1) 2 [1] [4]
          = loss (((1:ℚ), (2:ℚ), (3:ℚ)).1, ((1:ℚ), (2:ℚ), (3:ℚ)).2.1) 2 [1] [4]
        ∧ chi2 (((1:ℚ), (2:ℚ), (3:ℚ)).1, ((1:ℚ), (2:ℚ), (3:ℚ)).2.1) [1] [4] [1]
            = chi2 (((1:ℚ), (2:ℚ), (3:ℚ)).1, ((1:ℚ), (2:ℚ), (3:ℚ)).2.1) [1] [4] [1]
        ∧ negloglike sampleOps (1, 2, 3) [1] [4] [1]
            = negloglike sampleOps (1, 2, 3) [1] [4] [1]
        ∧ neglogprior sampleOps (1, 2, 3) (0, 0, 0) (1, 1, 1)
            = neglogprior sampleOps (1, 2, 3) (0, 0, 0) (1, 1, 1)
        ∧ neglogpost sampleOps (1, 2, 3) [1] [4] [1] (0, 0, 0) (1, 1, 1)
            = neglogpost sampleOps (1, 2, 3) [1] [4] [1] (0, 0, 0) (1, 1, 1)) :=
  ⟨rfl, objectives_deterministic sampleOps sampleOps 2 2 (1, 2, 3) (1, 2, 3)
    [1] [1] [4] [4] [1] [1] (0, 0, 0) (0, 0, 0) (1, 1, 1) (1, 1, 1)
    rfl rfl rfl rfl rfl rfl rfl rfl⟩

/-- C7: for every random state and every count N, the three sequences
(x, yobs, yerr) returned by `gen_mock_data` all have length exactly N. -/
theorem gen_mock_data_lengths (rs : RandomState) (m b s lo hi : ℚ) (N : ℕ) :
    (gen_mock_data rs m b s lo hi N).1.length = N
    ∧ (gen_mock_data rs m b s lo hi N).2.1.length = N
    ∧ (gen_mock_data rs m b s lo hi N).2.2.length = N := by
  refine ⟨?_, ?_, ?_⟩ <;>
    simp [gen_mock_data, List.length_insertionSort]

/-- C8: whenever the uniform draws honour their [0,1) contract, the x
sequence returned by `gen_mock_data` is sorted in nondecreasing order and
every element lies in the half-open interval [0, 3). -/
theorem gen_mock_data_x_sorted_bounded (rs : RandomState) (m b s lo hi : ℚ)
    (N : ℕ) (h : UnitDraws rs) :
    List.Sorted (· ≤ ·) (gen_mock_data rs m b s lo hi N).1
    ∧ ∀ xi ∈ (gen_mock_data rs m b s lo hi N).1, 0 ≤ xi ∧ xi < 3 := by
  constructor
  · simp only [gen_mock_data]
    exact List.sorted_insertionSort _ _
  · intro xi hxi
    simp only [gen_mock_data] at hxi
    have hmem : xi ∈ (List.range N).map (fun k => 3 * rs.unit k) :=
      (List.perm_insertionSort (· ≤ ·)
        ((List.range N).map (fun k => 3 * rs.unit k))).subset hxi
    obtain ⟨k, _, hk⟩ := List.mem_map.mp hmem
    obtain ⟨h0, h1⟩ := h k
    subst hk
    constructor
    · nlinarith
    · nlinarith

/-- A concrete random state used by the witnesses: every uniform draw is
1/2 and every standard-normal draw is 0. -/
def halfDraws : RandomState := ⟨fun _ => 1/2, fun _ => 0⟩

/-- Witness for C8 on the concrete random state with three points. -/
theorem gen_mock_data_x_sorted_bounded_witness :
    UnitDraws halfDraws ∧
      (List.Sorted (· ≤ ·) (gen_mock_data halfDraws 1 2 0 (1/5) (3/5) 3).1
        ∧ ∀ xi ∈ (gen_mock_data halfDraws 1 2 0 (1/5) (3/5) 3).1,
            0 ≤ xi ∧ xi < 3) :=
  ⟨fun _ => ⟨by norm_num [halfDraws], by norm_num [halfDraws]⟩,
    gen_mock_data_x_sorted_bounded halfDraws 1 2 0 (1/5) (3/5) 3
      (fun _ => ⟨by norm_num [halfDraws], by norm_num [halfDraws]⟩)⟩

/-- C9: with an uncertainty range 0 < lo ≤ hi and uniform draws honouring
their [0,1) contract, every measurement error returned by `gen_mock_data`
lies in [lo, hi]; consequently `chi2` takes its success branch (no domain
error) on the generated dataset, and every per-point likelihood variance
`yerr² + s²` is strictly positive. -/
theorem gen_mock_data_yerr_bounds (rs : RandomState) (m b s lo hi : ℚ)
    (N : ℕ) (t : ℚ × ℚ) (h : UnitDraws rs) (hlo : 0 < lo) (hhi : lo ≤ hi) :
    (∀ e ∈ (gen_mock_data rs m b s lo hi N).2.2, lo ≤ e ∧ e ≤ hi)
    ∧ (∃ r, chi2 t (gen_mock_data rs m b s lo hi N).1
        (gen_mock_data rs m b s lo hi N).2.1
        (gen_mock_data rs m b s lo hi N).2.2 = Except.ok r)
    ∧ ∀ e ∈ (gen_mock_data rs m b s lo hi N).2.2, ∀ sc : ℚ,
        0 < e ^ 2 + sc ^ 2 := by
  have hbounds : ∀ e ∈ (gen_mock_data rs m b s lo hi N).2.2, lo ≤ e ∧ e ≤ hi := by
    intro e he
    simp only [gen_mock_data] at he
    obtain ⟨k, _, hk⟩ := List.mem_map.mp he
    obtain ⟨h0, h1⟩ := h (N + k)
    subst hk
    constructor
    · nlinarith
    · nlinarith
  refine ⟨hbounds, ?_, ?_⟩
  · simp only [chi2]
    rw [if_neg]
    · exact ⟨_, rfl⟩
    · simp only [List.any_eq_true, not_exists]
      intro e
      rintro ⟨he, hle⟩
      have hpos : lo ≤ e := (hbounds e he).1
      simp only [decide_eq_true_eq] at hle
      linarith
  · intro e he sc
    have hpos : 0 < e := lt_of_lt_of_le hlo (hbounds e he).1
    nlinarith [sq_nonneg sc]

/-- Witness for C9 on the concrete random state, the notebook's default
uncertainty range [1/5, 3/5] and three points. -/
theorem gen_mock_data_yerr_bounds_witness :
    (UnitDraws halfDraws ∧ (0:ℚ) < 1/5 ∧ (1/5:ℚ) ≤ 3/5) ∧
      ((∀ e ∈ (gen_mock_data halfDraws 1 2 0 (1/5) (3/5) 3).2.2,
          1/5 ≤ e ∧ e ≤ 3/5)
        ∧ (∃ r, chi2 (1, 2) (gen_mock_data halfDraws 1 2 0 (1/5) (3/5) 3).1
            (gen_mock_data halfDraws 1 2 0 (1/5) (3/5) 3).2.1
            (gen_mock_data halfDraws 1 2 0 (1/5) (3/5) 3).2.2 = Except.ok r)
        ∧ ∀ e ∈ (gen_mock_data halfDraws 1 2 0 (1/5) (3/5) 3).2.2, ∀ sc : ℚ,
            0 < e ^ 2 + sc ^ 2) :=
  ⟨⟨fun _ => ⟨by norm_num [halfDraws], by norm_num [halfDraws]⟩,
      by norm_num, by norm_num⟩,
    gen_mock_data_yerr_bounds halfDraws 1 2 0 (1/5) (3/5) 3 (1, 2)
      (fun _ => ⟨by norm_num [halfDraws], by norm_num [halfDraws]⟩)
      (by norm_num) (by norm_num)⟩

/-- C10: `gen_mock_data` is deterministic in its arguments: two calls on
equal random states (as determined by the seed) and equal parameters
return identical (x, yobs, yerr) triples; no state outside the arguments
enters the computation. -/
theorem gen_mock_data_deterministic (rs₁ rs₂ : RandomState)
    (m₁ m₂ b₁ b₂ s₁ s₂ lo₁ lo₂ hi₁ hi₂ : ℚ) (N₁ N₂ : ℕ)
    (hr : rs₁ = rs₂) (hm : m₁ = m₂) (hb : b₁ = b₂) (hs : s₁ = s₂)
    (hlo : lo₁ = lo₂) (hhi : hi₁ = hi₂) (hN : N₁ = N₂) :
    gen_mock_data rs₁ m₁ b₁ s₁ lo₁ hi₁ N₁
      = gen_mock_data rs₂ m₂ b₂ s₂ lo₂ hi₂ N₂ := by
  subst hr; subst hm; subst hb; subst hs; subst hlo; subst hhi; subst hN
  rfl

/-- Witness for C10 on the concrete random state. -/
theorem gen_mock_data_deterministic_witness :
    halfDraws = halfDraws ∧
      gen_mock_data halfDraws 1 2 0 (1/5) (3/5) 3
        = gen_mock_data halfDraws 1 2 0 (1/5) (3/5) 3 :=
  ⟨rfl, gen_mock_data_deterministic halfDraws halfDraws 1 1 2 2 0 0
    (1/5) (1/5) (3/5) (3/5) 3 3 rfl rfl rfl rfl rfl rfl rfl⟩
